import Mathlib

/-!
Verification development for the `dub` repository slice under review:
the link QR modal component (`src/components/app/modals/link-qr-modal.tsx`)
and the request helpers `parse` and `detectBot` that live in the same file
after the document separator.

JavaScript semantics are embedded shallowly:
* nullable values (`req.headers.get(...)`, `useUsage().plan`, `project.logo`)
  become `Option String`;
* JS truthiness of strings (`if (ua)`, `!plan`, `logo || fallback`) is made
  explicit via `jsTruthyStr` and friends;
* functions that can throw (`decodeURIComponent`, hence `parse`; the
  destructuring in `LinkQRModalHelper`) return `Except String`;
* numbers occurring in arithmetic (`qrData.size / 8`) become `Rat`, matching
  exact JS floating division on the values in range.
-/

set_option autoImplicit false

namespace DubQR

/-! ## JS string truthiness -/

/-- JS truthiness of a string: `""` is falsy, every other string is truthy. -/
def jsTruthyStr (s : String) : Bool :=
  !s.isEmpty

/-- JS truthiness of a nullable string: `null`/`undefined` and `""` are falsy. -/
def jsTruthyOpt (o : Option String) : Bool :=
  match o with
  | some s => jsTruthyStr s
  | none => false

/-- JS `a || b` on a nullable string `a` with string fallback `b`. -/
def jsOrStr (o : Option String) (fallback : String) : String :=
  match o with
  | some s => if s.isEmpty then fallback else s
  | none => fallback

/-! ## Substring search (the regex of `detectBot` is an alternation of
literal substrings, so `.test` is substring membership). -/

/-- Predicate `listStarts n h`: holds when the list `n` is an initial run of `h`. -/
def listStarts : List Char → List Char → Bool
  | [], _ => true
  | _ :: _, [] => false
  | a :: as, b :: bs => a == b && listStarts as bs

/-- Predicate `hasSub n h`: holds when `n` occurs contiguously inside `h`. -/
def hasSub (n : List Char) : List Char → Bool
  | [] => listStarts n []
  | c :: t => listStarts n (c :: t) || hasSub n t

/-- ASCII lowercasing of a character list, matching the `/i` regex flag on
the ASCII-only alternatives of `detectBot`. -/
def lowerList (cs : List Char) : List Char :=
  cs.map Char.toLower

theorem listStarts_iff (n h : List Char) :
    listStarts n h = true ↔ ∃ t, h = n ++ t := by
  induction n generalizing h with
  | nil => simp [listStarts]
  | cons a as ih =>
    cases h with
    | nil =>
      simp [listStarts]
    | cons b bs =>
      simp only [listStarts, Bool.and_eq_true, beq_iff_eq, ih, List.cons_append,
        List.cons.injEq]
      constructor
      · rintro ⟨rfl, t, rfl⟩
        exact ⟨t, rfl, rfl⟩
      · rintro ⟨t, rfl, rfl⟩
        exact ⟨rfl, t, rfl⟩

theorem hasSub_iff (n h : List Char) :
    hasSub n h = true ↔ ∃ p t, h = p ++ n ++ t := by
  induction h with
  | nil =>
    simp only [hasSub, listStarts_iff]
    constructor
    · rintro ⟨t, ht⟩
      exact ⟨[], t, by simpa using ht⟩
    · rintro ⟨p, t, ht⟩
      rcases List.append_eq_nil.mp ht.symm with ⟨h1, ht'⟩
      rcases List.append_eq_nil.mp h1 with ⟨hp, hn⟩
      exact ⟨t, by simp [hn, ht']⟩
  | cons c cs ih =>
    simp only [hasSub, Bool.or_eq_true, listStarts_iff, ih]
    constructor
    · rintro (⟨t, ht⟩ | ⟨p, t, ht⟩)
      · exact ⟨[], t, by simpa using ht⟩
      · exact ⟨c :: p, t, by simp [ht]⟩
    · rintro ⟨p, t, ht⟩
      cases p with
      | nil => exact Or.inl ⟨t, by simpa using ht⟩
      | cons d ds =>
        simp only [List.cons_append, List.cons.injEq] at ht
        exact Or.inr ⟨ds, t, ht.2⟩

/-! ## `detectBot` (src/components/app/modals/link-qr-modal.tsx lines 322-333)

```js
export const detectBot = (req) => {
  const url = req.nextUrl;
  if (url.searchParams.get("bot")) return true;
  const ua = req.headers.get("User-Agent");
  if (ua) {
    return /bot|google|baidu|bing|msn|duckduckbot|teoma|slurp|yandex|MetaInspector/i.test(ua);
  }
  return false;
};
```

`searchParams.get("bot")` is `null` when the parameter is absent and `""`
when it is present with an empty value; both are falsy in the `if`. -/

/-- The literal alternatives of the bot User-Agent regex, as written. -/
def botUAPatterns : List String :=
  ["bot", "google", "baidu", "bing", "msn", "duckduckbot", "teoma", "slurp",
   "yandex", "MetaInspector"]

/-- Case-insensitive test of the User-Agent against the bot regex: the regex
is an alternation of literals, so `.test` with the `/i` flag is substring
membership after ASCII lowercasing. -/
def uaMatchesBotRegex (ua : String) : Bool :=
  botUAPatterns.any fun p => hasSub (lowerList p.toList) (lowerList ua.toList)

/-- Translation of `detectBot`: `botParam` is `url.searchParams.get("bot")`
and `ua` is `req.headers.get("User-Agent")`. -/
def detectBot (botParam : Option String) (ua : Option String) : Bool :=
  if jsTruthyOpt botParam then true
  else
    match ua with
    | some u => if jsTruthyStr u then uaMatchesBotRegex u else false
    | none => false

/-- The spec's reading of a User-Agent bot match: some fixed pattern occurs
in the User-Agent, case-insensitively. -/
def SpecUAMatch (u : String) : Prop :=
  ∃ p ∈ botUAPatterns, ∃ pre post,
    lowerList u.toList = pre ++ lowerList p.toList ++ post

theorem uaMatchesBotRegex_iff (u : String) :
    uaMatchesBotRegex u = true ↔ SpecUAMatch u := by
  simp only [uaMatchesBotRegex, SpecUAMatch, List.any_eq_true, hasSub_iff]

theorem uaMatchesBotRegex_empty : uaMatchesBotRegex "" = false := by
  decide

theorem jsTruthyOpt_iff (o : Option String) :
    jsTruthyOpt o = true ↔ ∃ s, o = some s ∧ s ≠ "" := by
  cases o with
  | none => simp [jsTruthyOpt]
  | some s =>
    constructor
    · intro h
      refine ⟨s, rfl, ?_⟩
      intro hs
      subst hs
      exact absurd h (by decide)
    · rintro ⟨t, ht, hne⟩
      injection ht with ht
      subst ht
      show (!s.isEmpty) = true
      cases he : s.isEmpty
      · simp
      · exact absurd ((String.isEmpty_iff s).mp he) hne

/-- C1 (counterexample): a request carrying the `bot` query parameter with an
empty value (`?bot=`) and no User-Agent header is classified as not a bot,
although the parameter is present; `searchParams.get("bot")` returns `""`,
which is falsy. -/
theorem detectBot_C1_counterexample :
    (some "" : Option String).isSome = true ∧ detectBot (some "") none = false := by
  decide

/-- C1 (amended): `detectBot` returns `true` exactly when the `bot` query
parameter is present with a non-empty value, or the `User-Agent` header is
present and contains one of the fixed bot substrings case-insensitively;
it returns `false` otherwise (in particular when the parameter is absent or
present with an empty value and the header is absent or matches none). -/
theorem detectBot_C1_amended (botParam ua : Option String) :
    detectBot botParam ua = true ↔
      ((∃ s, botParam = some s ∧ s ≠ "") ∨ (∃ u, ua = some u ∧ SpecUAMatch u)) := by
  unfold detectBot
  cases hb : jsTruthyOpt botParam with
  | true =>
    have h1 := (jsTruthyOpt_iff botParam).mp hb
    simp [h1]
  | false =>
    have hb' : ¬ ∃ s, botParam = some s ∧ s ≠ "" := by
      intro hc
      rw [← jsTruthyOpt_iff] at hc
      rw [hb] at hc
      cases hc
    cases ua with
    | none => simp [hb']
    | some u =>
      cases hu : jsTruthyStr u with
      | true =>
        simp [hu, hb', uaMatchesBotRegex_iff]
      | false =>
        have hu0 : u = "" := by
          have h2 : u.isEmpty = true := by
            have h3 := hu
            unfold jsTruthyStr at h3
            cases he : u.isEmpty
            · rw [he] at h3
              simp at h3
            · rfl
          exact (String.isEmpty_iff u).mp h2
        subst hu0
        have hm : ¬ SpecUAMatch "" := by
          rw [← uaMatchesBotRegex_iff, uaMatchesBotRegex_empty]
          simp
        simp [hu, hb', hm]

/-! ## `parse` (src/components/app/modals/link-qr-modal.tsx lines 314-320)

```js
export const parse = (req) => {
  let domain = req.headers.get("host");
  if (HOME_HOSTNAMES.has(domain)) domain = "dewbie.vercel.app";
  const path = req.nextUrl.pathname;
  const key = decodeURIComponent(path.split("/")[1]);
  return { domain, path, key };
};
```
-/

/-- Value of a hexadecimal digit character, `none` for a non-hex character. -/
def hexVal (c : Char) : Option Nat :=
  if '0' ≤ c ∧ c ≤ '9' then some (c.toNat - 48)
  else if 'A' ≤ c ∧ c ≤ 'F' then some (c.toNat - 55)
  else if 'a' ≤ c ∧ c ≤ 'f' then some (c.toNat - 87)
  else none

/-- A token of a URI component: either a literal character or the byte of a
percent escape. -/
inductive UriTok where
  | lit (c : Char)
  | byte (b : Nat)
deriving Repr, DecidableEq

/-- First phase of `decodeURIComponent`: each `%` must be followed by two hex
digits, yielding a byte; any other character is kept literally. `none`
corresponds to a thrown `URIError`. -/
def uriTokenize : List Char → Option (List UriTok)
  | [] => some []
  | '%' :: h1 :: h2 :: rest =>
    match hexVal h1, hexVal h2 with
    | some a, some b => (uriTokenize rest).map (UriTok.byte (16 * a + b) :: ·)
    | _, _ => none
  | '%' :: _ => none
  | c :: rest => (uriTokenize rest).map (UriTok.lit c :: ·)

/-- A UTF-8 continuation byte. -/
def isUtf8Cont (b : Nat) : Bool :=
  0x80 ≤ b && b ≤ 0xBF

/-- Admissible second byte of a three-byte UTF-8 sequence with lead `b0`
(strict UTF-8: overlong encodings and surrogates are rejected). -/
def utf8SecondOk3 (b0 b1 : Nat) : Bool :=
  if b0 == 0xE0 then 0xA0 ≤ b1 && b1 ≤ 0xBF
  else if b0 == 0xED then 0x80 ≤ b1 && b1 ≤ 0x9F
  else isUtf8Cont b1

/-- Admissible second byte of a four-byte UTF-8 sequence with lead `b0`
(strict UTF-8: overlong encodings and code points above U+10FFFF rejected). -/
def utf8SecondOk4 (b0 b1 : Nat) : Bool :=
  if b0 == 0xF0 then 0x90 ≤ b1 && b1 ≤ 0xBF
  else if b0 == 0xF4 then 0x80 ≤ b1 && b1 ≤ 0x8F
  else isUtf8Cont b1

/-- Second phase of `decodeURIComponent`: percent-escape bytes must form
valid (strict) UTF-8 sequences; literal characters pass through. `none`
corresponds to a thrown `URIError`. -/
def uriAssemble : List UriTok → Option (List Char)
  | [] => some []
  | .lit c :: rest => (uriAssemble rest).map (c :: ·)
  | .byte b0 :: rest =>
    if b0 ≤ 0x7F then (uriAssemble rest).map (Char.ofNat b0 :: ·)
    else if 0xC2 ≤ b0 && b0 ≤ 0xDF then
      match rest with
      | .byte b1 :: rest1 =>
        if isUtf8Cont b1 then
          (uriAssemble rest1).map (Char.ofNat ((b0 - 0xC0) * 0x40 + (b1 - 0x80)) :: ·)
        else none
      | _ => none
    else if 0xE0 ≤ b0 && b0 ≤ 0xEF then
      match rest with
      | .byte b1 :: .byte b2 :: rest2 =>
        if utf8SecondOk3 b0 b1 && isUtf8Cont b2 then
          (uriAssemble rest2).map
            (Char.ofNat ((b0 - 0xE0) * 0x1000 + (b1 - 0x80) * 0x40 + (b2 - 0x80)) :: ·)
        else none
      | _ => none
    else if 0xF0 ≤ b0 && b0 ≤ 0xF4 then
      match rest with
      | .byte b1 :: .byte b2 :: .byte b3 :: rest3 =>
        if utf8SecondOk4 b0 b1 && isUtf8Cont b2 && isUtf8Cont b3 then
          (uriAssemble rest3).map
            (Char.ofNat ((b0 - 0xF0) * 0x40000 + (b1 - 0x80) * 0x1000 +
              (b2 - 0x80) * 0x40 + (b3 - 0x80)) :: ·)
        else none
      | _ => none
    else none

/-- Translation of `decodeURIComponent`: percent-decoding with strict UTF-8 validation; a
malformed escape or byte sequence raises `URIError`, modelled as `.error`. -/
def decodeURIComponent (s : String) : Except String String :=
  match uriTokenize s.toList with
  | none => .error "URIError: URI malformed"
  | some toks =>
    match uriAssemble toks with
    | none => .error "URIError: URI malformed"
    | some cs => .ok (String.mk cs)

/-- JS `String.prototype.split` with a single-character separator. -/
def splitOnChar (sep : Char) : List Char → List (List Char)
  | [] => [[]]
  | c :: cs =>
    if c == sep then [] :: splitOnChar sep cs
    else
      match splitOnChar sep cs with
      | [] => [[c]]
      | h :: t => (c :: h) :: t

theorem splitOnChar_head (sep : Char) (cs : List Char) :
    (splitOnChar sep cs).head? = some (cs.takeWhile (fun c => c != sep)) := by
  induction cs with
  | nil => simp [splitOnChar]
  | cons c cs ih =>
    simp only [splitOnChar]
    by_cases h : c = sep
    · subst h
      simp [List.takeWhile_cons, bne]
    · have hbeq : (c == sep) = false := beq_eq_false_iff_ne.mpr h
      rcases hsp : splitOnChar sep cs with _ | ⟨hd, tl⟩
      · rw [hsp] at ih
        simp at ih
      · rw [hsp] at ih
        simp only [List.head?_cons, Option.some.injEq] at ih
        simp [hbeq, List.takeWhile_cons, bne, ih]

/-- JS `path.split("/")[1]`, stringified the way `decodeURIComponent` sees
it: `arr[1]` is `undefined` when the split has fewer than two parts, and
`decodeURIComponent(undefined)` coerces its argument to the string
`"undefined"`. -/
def rawFirstSegment (pathname : String) : String :=
  match (splitOnChar '/' pathname.toList)[1]? with
  | some cs => String.mk cs
  | none => "undefined"

/-- Result record of `parse`: `{ domain, path, key }`. -/
structure ParseResult where
  domain : Option String
  path : String
  key : String
deriving Repr, DecidableEq

/-- The domain computation of `parse` (lines 315-316): the host header,
replaced by the fixed fallback when it is a member of `HOME_HOSTNAMES`.
Modelled from the spec: the set `HOME_HOSTNAMES` is imported from
`@/lib/constants`, which is not part of the reviewed sources; the spec only
says it is "a known set of home hostnames", so membership is kept abstract
as a predicate. A `null` host (absent header) is never a member of a set of
strings. -/
def parseDomain (HOME_HOSTNAMES : String → Bool) (host : Option String) :
    Option String :=
  match host with
  | some h => if HOME_HOSTNAMES h then some "dewbie.vercel.app" else some h
  | none => none

/-- Translation of `parse`. A `URIError` thrown by `decodeURIComponent`
propagates out of `parse`, so no record is returned in that case. -/
def parse (HOME_HOSTNAMES : String → Bool) (host : Option String)
    (pathname : String) : Except String ParseResult :=
  match decodeURIComponent (rawFirstSegment pathname) with
  | .error e => .error e
  | .ok key => .ok ⟨parseDomain HOME_HOSTNAMES host, pathname, key⟩

/-- The first path segment as the claim words it: the substring of the
pathname between the leading slash and the next slash or the end. -/
def specFirstSegment (path : String) : String :=
  String.mk ((path.toList.drop 1).takeWhile (fun c => c != '/'))

theorem rawFirstSegment_of_leadingSlash (path : String)
    (h : path.toList.head? = some '/') :
    rawFirstSegment path = specFirstSegment path := by
  rcases hp : path.toList with _ | ⟨c, rest⟩
  · rw [hp] at h
    simp at h
  · rw [hp] at h
    simp only [List.head?_cons, Option.some.injEq] at h
    subst h
    have hsplit : splitOnChar '/' ('/' :: rest) = [] :: splitOnChar '/' rest := by
      simp [splitOnChar]
    rcases hr : splitOnChar '/' rest with _ | ⟨hd, tl⟩
    · have := splitOnChar_head '/' rest
      rw [hr] at this
      simp at this
    · have hhd : hd = rest.takeWhile (fun c => c != '/') := by
        have := splitOnChar_head '/' rest
        rw [hr] at this
        simpa using this
      rw [rawFirstSegment, specFirstSegment, hp, hsplit, hr]
      simp [hhd]

/-- C2: whenever `parse` returns a record, its `key` is `decodeURIComponent`
applied to the first path segment of the pathname, i.e. to the substring of
the pathname between the leading slash and the next slash or the end. -/
theorem parse_key_C2 (HOME : String → Bool) (host : Option String)
    (path : String) (r : ParseResult)
    (hslash : path.toList.head? = some '/')
    (hok : parse HOME host path = Except.ok r) :
    decodeURIComponent (specFirstSegment path) = Except.ok r.key := by
  rw [← rawFirstSegment_of_leadingSlash path hslash]
  unfold parse at hok
  cases hd : decodeURIComponent (rawFirstSegment path) with
  | error e =>
    rw [hd] at hok
    cases hok
  | ok key =>
    rw [hd] at hok
    simp only [Except.ok.injEq] at hok
    rw [← hok]

/-- Witness for C2 at a concrete request: percent-decoding of the first
segment of `/hello%20world/stats`. -/
theorem parse_key_C2_witness :
    decodeURIComponent (specFirstSegment "/hello%20world/stats") =
      Except.ok "hello world" :=
  parse_key_C2 (fun _ => false) (some "dub.sh") "/hello%20world/stats"
    ⟨some "dub.sh", "/hello%20world/stats", "hello world"⟩ (by rfl) (by rfl)

/-- C3: whenever `parse` returns a record, its `domain` is the Host header
with the fixed fallback `"dewbie.vercel.app"` substituted exactly when the
header value is a member of `HOME_HOSTNAMES`, the header value unchanged
otherwise (and absent when the header is absent). -/
theorem parse_domain_C3 (HOME : String → Bool) (host : Option String)
    (path : String) (r : ParseResult)
    (hok : parse HOME host path = Except.ok r) :
    r.domain = host.map fun h => if HOME h then "dewbie.vercel.app" else h := by
  unfold parse at hok
  cases hd : decodeURIComponent (rawFirstSegment path) with
  | error e =>
    rw [hd] at hok
    cases hok
  | ok key =>
    rw [hd] at hok
    simp only [Except.ok.injEq] at hok
    rw [← hok]
    cases host with
    | none => rfl
    | some h =>
      show parseDomain HOME (some h) = _
      unfold parseDomain
      cases hh : HOME h <;> simp [hh]

/-- Witness for C3 at a concrete request whose host is in the home set. -/
theorem parse_domain_C3_witness :
    (⟨some "dewbie.vercel.app", "/k", "k"⟩ : ParseResult).domain =
      (some "home.sh" : Option String).map
        (fun h => if (h == "home.sh" : Bool) then "dewbie.vercel.app" else h) :=
  parse_domain_C3 (fun h => h == "home.sh") (some "home.sh") "/k"
    ⟨some "dewbie.vercel.app", "/k", "k"⟩ (by rfl)

/-- C8: `parse` is not total: a first path segment with a malformed percent
escape (here the lone UTF-8 lead byte `%E0`) makes `decodeURIComponent`
throw `URIError`, which propagates out of `parse`. -/
theorem parse_C8_malformed :
    parse (fun _ => false) (some "dewbie.sh") "/%E0" =
      Except.error "URIError: URI malformed" := by
  rfl

/-! ## The QR modal (`LinkQRModalHelper`, `AdvancedSettings`)

State and option plumbing of the component. Sizes enter arithmetic
(`qrData.size / 8`), so numeric fields are `Rat`, matching exact JS number
division on the values involved. -/

/-- The embedded-logo descriptor of the QR options (`imageSettings`). -/
structure ImageSettings where
  src : String
  height : Rat
  width : Rat
  excavate : Bool
deriving Repr, DecidableEq

/-- The QR options record `qrData` owned by the component. `imageSettings`
is optional: it is added by the conditional spread in the initializer. -/
structure QRData where
  value : String
  bgColor : String
  fgColor : String
  size : Rat
  level : String
  imageSettings : Option ImageSettings
deriving Repr, DecidableEq

/-- Initial `qrData` (lines 64-78). `showLogo` starts as `true`, so the
conditional spread contributes the `imageSettings` object. -/
def initialQrData (qrDestUrl qrLogoUrl : String) : QRData :=
  { value := qrDestUrl
    bgColor := "#ffffff"
    fgColor := "#000000"
    size := 1024
    level := "Q"
    imageSettings := some { src := qrLogoUrl, height := 256, width := 256, excavate := true } }

/-- The only `setQrData` transition in the component: both the hex color
picker (lines 253-258) and the hex input (lines 275-280) update the record
with `{ ...qrData, fgColor: color }`. -/
def setFgColor (q : QRData) (color : String) : QRData :=
  { q with fgColor := color }

/-- A sequence of foreground-color updates applied in order. -/
def applyFgUpdates (q : QRData) : List String → QRData
  | [] => q
  | c :: cs => applyFgUpdates (setFgColor q c) cs

theorem applyFgUpdates_imageSettings (cs : List String) (q : QRData) :
    (applyFgUpdates q cs).imageSettings = q.imageSettings := by
  induction cs generalizing q with
  | nil => rfl
  | cons c cs ih => exact ih (setFgColor q c)

/-- Size passed to the on-screen `QRCodeSVG` preview (line 102):
`qrData.size / 8`. -/
def previewSize (q : QRData) : Rat :=
  q.size / 8

/-- The `imageSettings` prop passed to the on-screen preview (lines 107-113):
`showLogo && { ...qrData.imageSettings, height: h / 8, width: w / 8 }`; the
JS value `false` passed as a prop is modelled as `none`. Reading `.height`
of an absent `imageSettings` would throw in JS; every reachable state keeps
`imageSettings` present (see `applyFgUpdates_imageSettings`), and the
unreachable absent case is mapped to `none`. -/
def previewImageSettings (q : QRData) (showLogo : Bool) : Option ImageSettings :=
  if showLogo then
    match q.imageSettings with
    | some i => some { i with height := i.height / 8, width := i.width / 8 }
    | none => none
  else none

/-- Options handed to `getQRAsCanvas` by the PNG button (line 145) and the
JPEG button (line 153): the raw `qrData` record, with no adjustment for the
logo toggle. -/
def canvasExportOptions (q : QRData) : QRData := q

/-- Result of spreading an absent `imageSettings` object: `{ ...undefined }`
contributes no properties; the missing fields are modelled with neutral
defaults. This branch is unreachable from the initial state, whose
`imageSettings` is present. -/
def undefinedSpreadImageSettings : ImageSettings :=
  { src := "", height := 0, width := 0, excavate := false }

/-- Options handed to `getQRAsSVGDataUri` by the SVG button (lines 127-135):
`{ ...qrData, ...(showLogo && { imageSettings: { ...qrData.imageSettings,
src: logo || "https://dewbie.vercel.app/_static/logo.svg" } }) }`. Spreading
the value `false` contributes no properties, so with the logo toggled off
the record is passed through unchanged, `imageSettings` included. -/
def svgExportOptions (q : QRData) (showLogo : Bool) (logo : Option String) :
    QRData :=
  if showLogo then
    { q with
      imageSettings := some
        { q.imageSettings.getD undefinedSpreadImageSettings with
          src := jsOrStr logo "https://dewbie.vercel.app/_static/logo.svg" } }
  else q

/-- The hidden anchor element used to prompt downloads, with a counter
recording programmatic `click()` calls. -/
structure Anchor where
  href : String
  downloadName : String
  clicks : Nat
deriving Repr, DecidableEq

/-- Translation of `download(url, extension)` (lines 56-61): a no-op when
the anchor ref is not mounted; otherwise sets `href` to the rendered data,
sets the download filename to `key ++ "-qrcode." ++ extension`, and clicks
the anchor. -/
def download (key : String) (anchor : Option Anchor) (url extension : String) :
    Option Anchor :=
  match anchor with
  | none => none
  | some a =>
    some { href := url
           downloadName := key ++ "-qrcode." ++ extension
           clicks := a.clicks + 1 }

/-- SVG button click (lines 124-142): await the SVG renderer on the merged
options, then download with extension `svg`. `renderSVG` abstracts the
external `getQRAsSVGDataUri`. -/
def svgButtonClick (renderSVG : QRData → String) (key : String)
    (logo : Option String) (q : QRData) (showLogo : Bool)
    (anchor : Option Anchor) : Option Anchor :=
  download key anchor (renderSVG (svgExportOptions q showLogo logo)) "svg"

/-- PNG button click (lines 143-150): await `getQRAsCanvas(qrData,
"image/png")`, then download with extension `png`. `renderCanvas` abstracts
the external `getQRAsCanvas`. -/
def pngButtonClick (renderCanvas : QRData → String → String) (key : String)
    (q : QRData) (anchor : Option Anchor) : Option Anchor :=
  download key anchor (renderCanvas (canvasExportOptions q) "image/png") "png"

/-- JPEG button click (lines 151-158): await `getQRAsCanvas(qrData,
"image/jpeg")`, then download with extension `jpg`. -/
def jpegButtonClick (renderCanvas : QRData → String → String) (key : String)
    (q : QRData) (anchor : Option Anchor) : Option Anchor :=
  download key anchor (renderCanvas (canvasExportOptions q) "image/jpeg") "jpg"

/-- Favicon data computed by the `useMemo` at lines 32-42: on success an
object with `avatarUrl` and `apexDomain`; when `getApexDomain` throws, the
catch returns `null`, modelled as `none`. -/
structure AvatarInfo where
  avatarUrl : String
  apexDomain : String
deriving Repr, DecidableEq

/-- The `useMemo` body of lines 32-42. `getApexDomain` is Modelled from the
spec: it lives in `@/lib/utils`, outside the reviewed sources; the spec says
the destination URL may fail to parse for a favicon domain, so it is
abstracted as a fallible function. -/
def avatarMemo (getApexDomain : String → Except String String) (url : String) :
    Option AvatarInfo :=
  match getApexDomain url with
  | .ok apex =>
    some { avatarUrl := "https://www.google.com/s2/favicons?sz=64&domain_url=" ++ apex
           apexDomain := apex }
  | .error _ => none

/-- JS destructuring `const { avatarUrl, apexDomain } = x` at line 32:
throws a `TypeError` when `x` is `null`. -/
def destructureAvatar (x : Option AvatarInfo) : Except String AvatarInfo :=
  match x with
  | none => .error "TypeError: cannot destructure avatarUrl of null"
  | some v => .ok v

/-- What the modal header shows in place of the favicon. -/
inductive HeaderGlyph where
  | favicon (src : String)
  | logoGlyph
deriving Repr, DecidableEq

/-- Rendering of the modal header (lines 84-94): first the destructuring of
the memo result at line 32, then `avatarUrl ? <BlurImage .../> : <Logo />`. -/
def headerRender (memo : Option AvatarInfo) : Except String HeaderGlyph :=
  match destructureAvatar memo with
  | .error e => .error e
  | .ok info =>
    .ok (if jsTruthyStr info.avatarUrl then .favicon info.avatarUrl else .logoGlyph)

/-- The two render states of the logo switch row in `AdvancedSettings`. -/
inductive LogoSwitchRender where
  | disabledWithUpgradeTooltip
  | enabled
deriving Repr, DecidableEq

/-- Translation of the branch at line 207: `!plan || plan === "Free"`
renders the tooltip-wrapped, non-interactive switch with the upgrade prompt;
any other plan renders the enabled switch. -/
def logoSwitchRender (plan : Option String) : LogoSwitchRender :=
  if !jsTruthyOpt plan || plan == some "Free" then .disabledWithUpgradeTooltip
  else .enabled

/-- C4 (code bug): when `getApexDomain` throws, the `useMemo` catch returns
`null`, and the destructuring `const { avatarUrl, apexDomain } = ...` at
line 32 throws a `TypeError`: the component errors out instead of silently
falling back to the generic logo glyph (`Except.ok HeaderGlyph.logoGlyph`).
-/
theorem headerRender_C4_code_bug :
    headerRender (avatarMemo (fun _ => Except.error "Invalid URL") "notaurl") =
      Except.error "TypeError: cannot destructure avatarUrl of null" := by
  rfl

/-- C5 (counterexample): with the logo toggled off, the options handed to
the SVG exporter still contain the embedded-logo `imageSettings`: spreading
the value `false` into the object literal contributes nothing, and `qrData`
never loses its `imageSettings`. This contradicts the claim that the SVG
export omits the logo. -/
theorem svgExportOptions_C5_counterexample :
    (svgExportOptions (initialQrData "https://dewbie.vercel.app/key" "logo.svg")
        false none).imageSettings =
      some { src := "logo.svg", height := 256, width := 256, excavate := true } := by
  rfl

/-- C5 (amended): toggling the logo off affects only the on-screen preview.
The PNG and JPEG exporters receive the raw `qrData` record, the SVG exporter
also receives `qrData` unchanged with its `imageSettings` intact (only the
logo `src` override is skipped), and the preview alone omits the logo;
moreover `qrData` retains the initial embedded-logo `imageSettings` across
every state transition of the component. -/
theorem export_options_C5_amended (q : QRData) (logo : Option String)
    (u l : String) (cs : List String) :
    canvasExportOptions q = q ∧
    svgExportOptions q false logo = q ∧
    previewImageSettings q false = none ∧
    (applyFgUpdates (initialQrData u l) cs).imageSettings =
      some { src := l, height := 256, width := 256, excavate := true } := by
  refine ⟨rfl, rfl, rfl, ?_⟩
  rw [applyFgUpdates_imageSettings]
  rfl

/-- C6 (counterexample): a present but empty plan string is falsy in JS, so
`!plan || plan === "Free"` renders the disabled switch although the plan is
neither absent nor `"Free"`; the claim that every plan other than an absent
or `"Free"` one enables the switch fails there. -/
theorem logoSwitchRender_C6_counterexample :
    logoSwitchRender (some "") = LogoSwitchRender.disabledWithUpgradeTooltip ∧
      (some "" : Option String) ≠ none ∧ ("" : String) ≠ "Free" := by
  refine ⟨rfl, by decide, by decide⟩

/-- C6 (amended): the logo switch is rendered disabled with the upgrade
tooltip exactly when the plan is absent, the empty string, or `"Free"`, and
enabled for every other plan value. -/
theorem logoSwitchRender_C6_amended (plan : Option String) :
    logoSwitchRender plan = LogoSwitchRender.disabledWithUpgradeTooltip ↔
      (plan = none ∨ plan = some "" ∨ plan = some "Free") := by
  cases plan with
  | none => simp [logoSwitchRender, jsTruthyOpt]
  | some s =>
    have hcond : (!jsTruthyOpt (some s) || (some s == some ("Free" : String))) = true ↔
        (s = "" ∨ s = "Free") := by
      simp [jsTruthyOpt, jsTruthyStr, String.isEmpty_iff]
    unfold logoSwitchRender
    cases hcb : (!jsTruthyOpt (some s) || (some s == some ("Free" : String))) with
    | true =>
      have h := hcond.mp hcb
      rcases h with h | h <;> subst h <;> simp
    | false =>
      have h : ¬(s = "" ∨ s = "Free") := fun hc => by
        rw [← hcond, hcb] at hc
        cases hc
      rw [not_or] at h
      simp [h.1, h.2]

/-- C7: each format button awaits its renderer on its options record and
then downloads through the hidden anchor: the anchor's `href` becomes the
rendered data, its filename becomes `key ++ "-qrcode." ++ ext` with `ext`
being `svg`, `png` and `jpg` respectively, and the anchor is clicked once;
when the anchor is not mounted the click is a no-op. -/
theorem format_buttons_C7 (renderSVG : QRData → String)
    (renderCanvas : QRData → String → String) (key : String)
    (logo : Option String) (q : QRData) (showLogo : Bool) (a : Anchor) :
    svgButtonClick renderSVG key logo q showLogo (some a) =
      some { href := renderSVG (svgExportOptions q showLogo logo)
             downloadName := key ++ "-qrcode." ++ "svg"
             clicks := a.clicks + 1 } ∧
    pngButtonClick renderCanvas key q (some a) =
      some { href := renderCanvas (canvasExportOptions q) "image/png"
             downloadName := key ++ "-qrcode." ++ "png"
             clicks := a.clicks + 1 } ∧
    jpegButtonClick renderCanvas key q (some a) =
      some { href := renderCanvas (canvasExportOptions q) "image/jpeg"
             downloadName := key ++ "-qrcode." ++ "jpg"
             clicks := a.clicks + 1 } ∧
    svgButtonClick renderSVG key logo q showLogo none = none ∧
    pngButtonClick renderCanvas key q none = none ∧
    jpegButtonClick renderCanvas key q none = none := by
  exact ⟨rfl, rfl, rfl, rfl, rfl, rfl⟩

/-- A hexadecimal digit character. -/
def isHexDigitChar (c : Char) : Bool :=
  ('0' ≤ c && c ≤ '9') || ('a' ≤ c && c ≤ 'f') || ('A' ≤ c && c ≤ 'F')

/-- A valid CSS-style hex color string: `#` followed by 6 or 3 hex digits. -/
def isValidHexColor (s : String) : Bool :=
  match s.toList with
  | '#' :: rest => (rest.length == 6 || rest.length == 3) && rest.all isHexDigitChar
  | _ => false

/-- C9: the initial `qrData` has valid hex colors `#ffffff` / `#000000` and
positive size `1024`, and the only state transition the component performs
(the `fgColor` update shared by the hex color picker and the hex input)
stores the externally validated color unchanged (no validation logic of its
own), preserves validity of both colors, and leaves the size untouched. -/
theorem qrData_C9_invariant (u l : String) (q : QRData) (c : String)
    (hc : isValidHexColor c = true)
    (hbg : isValidHexColor q.bgColor = true) :
    isValidHexColor (initialQrData u l).bgColor = true ∧
    isValidHexColor (initialQrData u l).fgColor = true ∧
    (initialQrData u l).size = 1024 ∧
    0 < (initialQrData u l).size ∧
    (setFgColor q c).fgColor = c ∧
    isValidHexColor (setFgColor q c).fgColor = true ∧
    (setFgColor q c).bgColor = q.bgColor ∧
    isValidHexColor (setFgColor q c).bgColor = true ∧
    (setFgColor q c).size = q.size := by
  exact ⟨(by decide : isValidHexColor "#ffffff" = true),
         (by decide : isValidHexColor "#000000" = true), rfl,
         (by norm_num : (0 : Rat) < 1024), rfl, hc, rfl, hbg, rfl⟩

/-- Witness for C9 at a concrete state and color. -/
theorem qrData_C9_invariant_witness :
    isValidHexColor "#123abc" = true ∧
    (isValidHexColor (initialQrData "u" "l").bgColor = true ∧
     isValidHexColor (initialQrData "u" "l").fgColor = true ∧
     (initialQrData "u" "l").size = 1024 ∧
     0 < (initialQrData "u" "l").size ∧
     (setFgColor (initialQrData "u" "l") "#123abc").fgColor = "#123abc" ∧
     isValidHexColor (setFgColor (initialQrData "u" "l") "#123abc").fgColor = true ∧
     (setFgColor (initialQrData "u" "l") "#123abc").bgColor =
       (initialQrData "u" "l").bgColor ∧
     isValidHexColor (setFgColor (initialQrData "u" "l") "#123abc").bgColor = true ∧
     (setFgColor (initialQrData "u" "l") "#123abc").size =
       (initialQrData "u" "l").size) :=
  ⟨by decide,
   qrData_C9_invariant "u" "l" (initialQrData "u" "l") "#123abc" (by decide) (by decide)⟩

theorem eight_mul_div_eight (x : Rat) : 8 * (x / 8) = x := by
  rw [← mul_div_assoc]
  exact mul_div_cancel_left₀ x (by norm_num)

/-- C10: the on-screen preview is rendered at exactly one eighth of the
download resolution: eight times the preview size is the size the canvas
exporters receive, eight times the preview logo height and width are the
exported logo height and width, the exporters receive the full record, and
the defaults are size 1024 with a 256 by 256 logo. -/
theorem preview_scale_C10 (u l : String) (q : QRData) (i pi : ImageSettings)
    (hi : q.imageSettings = some i)
    (hpi : previewImageSettings q true = some pi) :
    8 * previewSize q = (canvasExportOptions q).size ∧
    8 * pi.height = i.height ∧
    8 * pi.width = i.width ∧
    (canvasExportOptions q).imageSettings = some i ∧
    (initialQrData u l).size = 1024 ∧
    (initialQrData u l).imageSettings =
      some { src := l, height := 256, width := 256, excavate := true } := by
  unfold previewImageSettings at hpi
  rw [hi] at hpi
  simp only [if_true, Option.some.injEq] at hpi
  refine ⟨eight_mul_div_eight q.size, ?_, ?_, hi, rfl, rfl⟩
  · rw [← hpi]
    exact eight_mul_div_eight i.height
  · rw [← hpi]
    exact eight_mul_div_eight i.width

/-- Witness for C10 at the initial state. -/
theorem preview_scale_C10_witness :
    8 * previewSize (initialQrData "u" "l") =
      (canvasExportOptions (initialQrData "u" "l")).size ∧
    8 * (32 : Rat) = (256 : Rat) ∧
    8 * (32 : Rat) = (256 : Rat) ∧
    (canvasExportOptions (initialQrData "u" "l")).imageSettings =
      some { src := "l", height := 256, width := 256, excavate := true } ∧
    (initialQrData "u" "l").size = 1024 ∧
    (initialQrData "u" "l").imageSettings =
      some { src := "l", height := 256, width := 256, excavate := true } :=
  preview_scale_C10 "u" "l" (initialQrData "u" "l")
    { src := "l", height := 256, width := 256, excavate := true }
    { src := "l", height := 32, width := 32, excavate := true }
    (by rfl)
    (by
      simp only [previewImageSettings, initialQrData, if_true, Option.some.injEq,
        ImageSettings.mk.injEq]
      norm_num)

end DubQR
